import Mathlib

/-!
Verification development for the resumable unauthenticated-endpoint scan
engine (source files ai_agent.py, engine.py, unauth_checker.py).

The engine is embedded shallowly: every operation the claims touch is a
computable Lean function translated from the Python source.  External
effects (the sample-provider HTTP call, the probe HTTP call, the JSON
pretty-printer of the standard library, URL hostname parsing, and disk
write outcomes) are supplied through an explicit environment record, so
that one run of the engine is a deterministic function of that record.
The filesystem is a finite association list from path to file content,
and a scan threads an explicit state through every append.
-/

namespace UnauthChecker

/-- Parameter declaration of an endpoint: name, declared type, description
(engine.py, extract_endpoints). -/
structure Param where
  name : String
  type : String
  description : String
  deriving DecidableEq

/-- Endpoint declaration: path, upper-cased method, ordered parameter list
(engine.py, extract_endpoints). -/
structure Endpoint where
  path : String
  method : String
  params : List Param
  deriving DecidableEq

/-- Observed outcome of one probe: a numeric status code, or the transport
failure sentinel that the source writes as the string ERROR. -/
inductive StatusOutcome where
  | code (n : Nat)
  | error
  deriving DecidableEq

/-- One output row, with the fixed column schema CSV_FIELDS of engine.py. -/
structure Row where
  endpoint : String
  method : String
  params_count : Nat
  params_values : String
  status_codes : String
  response : String
  confidence : Nat
  confidence_level : String
  notes : String
  deriving DecidableEq

/-- Content of one file on disk.  A file is `unreadable` when opening or
decoding it fails as a whole; otherwise it is a list of data rows, where
`none` marks a row at which reading raises (for example undecodable bytes
mid-file).  Rows written by the engine itself are always `some`. -/
inductive FileContent where
  | unreadable
  | rows (rs : List (Option Row))
  deriving DecidableEq

/-- The filesystem: existing files, path to content. -/
abbrev FS := List (String × FileContent)

/-- Environment of one engine run: every external effect the source touches,
made explicit.  `respond` models the body of AIAgent.generate_sample_value
up to and including the JSON field extraction (`none` means that call
raised); it is indexed by the sample-set number so that the two sample sets
may differ while staying deterministic within a run.  `http` models
requests.request (`Except.error` is a requests.RequestException with its
message).  `jsonPretty` models json.loads followed by json.dumps with
indent 2 (`none` means json.loads raised).  `hostnameOf` models
urlparse(url).hostname or netloc or "unknown".  `writeOk k` tells whether
the k-th row-append attempt of the run succeeds on disk, and `createOk`
whether creating a missing output file succeeds. -/
structure Env where
  apiKey : Option String
  respond : Nat → String → String → String → Option String
  http : String → String → List (String × String) → Except String (Nat × String)
  jsonPretty : String → Option String
  hostnameOf : String → String
  writeOk : Nat → Bool
  createOk : Bool

/-! ### String helpers

Implemented over the underlying character lists so that closed instances
evaluate inside the kernel. -/

/-- Concatenate a list of strings with a separator (models str.join and the
comma separator of json.dumps). -/
def joinSep (sep : String) : List String → String
  | [] => ""
  | [a] => a
  | a :: b :: rest => a ++ sep ++ joinSep sep (b :: rest)

/-- Python str.rstrip with a slash argument: remove all trailing slashes. -/
def stripTrailingSlashes (s : String) : String :=
  String.mk ((s.data.reverse.dropWhile (fun c => c = '/')).reverse)

/-- Prefix test on strings. -/
def strStartsWith (s pre : String) : Bool :=
  pre.data.isPrefixOf s.data

/-- Suffix test on strings. -/
def strEndsWith (s suf : String) : Bool :=
  suf.data.isSuffixOf s.data

/-- Drop the first n characters. -/
def strDrop (s : String) (n : Nat) : String :=
  String.mk (s.data.drop n)

/-- Drop the last n characters. -/
def strDropRight (s : String) (n : Nat) : String :=
  String.mk ((s.data.reverse.drop n).reverse)

/-- Keep the first n characters (Python slicing text[:limit]). -/
def strTake (s : String) (n : Nat) : String :=
  String.mk (s.data.take n)

/-- ASCII whitespace test used by strip. -/
def isSpaceChar (c : Char) : Bool :=
  c = ' ' || c = '\t' || c = '\n' || c = '\r'

/-- Python str.strip of surrounding whitespace. -/
def strStrip (s : String) : String :=
  String.mk (((s.data.dropWhile isSpaceChar).reverse.dropWhile isSpaceChar).reverse)

/-! ### Sample provider (ai_agent.py) -/

/-- Models AIAgent.__init__ reached through the lazy get_agent of engine.py:
it raises RuntimeError when the MISTRAL_API_KEY environment variable is not
set, and otherwise yields the (stateless, in this embedding) agent.  The
module-level caching of the agent is the identity here because the
environment record is fixed for a run. -/
def get_agent (env : Env) : Except String Unit :=
  match env.apiKey with
  | none => .error "MISTRAL_API_KEY environment variable not set"
  | some _ => .ok ()

/-- AIAgent.generate_sample_value: one completion call whose entire body is
wrapped in a try block; any failure yields the fixed fallback literal.  The
success path strips surrounding whitespace from the extracted content.
`setIdx` is the sample-set number of the calling loop, threading the call
sequence through the deterministic environment. -/
def generate_sample_value (env : Env) (setIdx : Nat)
    (param_type name description : String) : String :=
  match env.respond setIdx param_type name description with
  | some content => strStrip content
  | none => "test"

/-- Python dict assignment on an insertion-ordered association list: an
existing key is overwritten in place, a new key is appended. -/
def dictInsert : List (String × String) → String → String → List (String × String)
  | [], k, v => [(k, v)]
  | (k', v') :: rest, k, v =>
      if k' = k then (k', v) :: rest else (k', v') :: dictInsert rest k v

/-- The inner loop of generate_param_samples: one sample map, one provider
call per declared parameter. -/
def buildSample (env : Env) (setIdx : Nat) (ep : Endpoint) : List (String × String) :=
  ep.params.foldl
    (fun m p => dictInsert m p.name (generate_sample_value env setIdx p.type p.name p.description))
    []

/-- engine.generate_param_samples: with no parameters it returns the
one-element list holding an empty map, without touching the agent;
otherwise it obtains the agent (which can raise) and builds exactly two
sample maps. -/
def generate_param_samples (env : Env) (ep : Endpoint) :
    Except String (List (List (String × String))) :=
  if ep.params = [] then
    .ok [[]]
  else do
    let _ ← get_agent env
    .ok ((List.range 2).map (fun i => buildSample env i ep))

/-! ### Serialization of parameter maps (engine.format_params_values) -/

/-- Escaping of json.dumps for the string values that occur here (quote and
backslash; control-character escapes are not needed by any modeled value). -/
def jsonEscapeChar (c : Char) : String :=
  if c = '\\' then "\\\\"
  else if c = '"' then "\\\""
  else String.singleton c

/-- Escape a whole string for a JSON string literal. -/
def jsonEscape (s : String) : String :=
  String.join (s.data.map jsonEscapeChar)

/-- A JSON string literal. -/
def jsonStringLit (s : String) : String :=
  "\"" ++ jsonEscape s ++ "\""

/-- Lexicographic comparison of character lists by code point, the order
Python uses on strings. -/
def charListLe : List Char → List Char → Bool
  | [], _ => true
  | _ :: _, [] => false
  | a :: as, b :: bs =>
      if a.toNat < b.toNat then true
      else if a.toNat = b.toNat then charListLe as bs
      else false

/-- String comparison by code point. -/
def strLe (a b : String) : Bool :=
  charListLe a.data b.data

/-- Stable insertion into a sorted list. -/
def insertSorted (le : α → α → Bool) (a : α) : List α → List α
  | [] => [a]
  | b :: rest => if le a b then a :: b :: rest else b :: insertSorted le a rest

/-- Stable insertion sort. -/
def sortBy (le : α → α → Bool) : List α → List α
  | [] => []
  | a :: rest => insertSorted le a (sortBy le rest)

/-- Key order of json.dumps with sort_keys: ascending code-point order,
matching Python string comparison. -/
def sortByKey (m : List (String × String)) : List (String × String) :=
  sortBy (fun a b => strLe a.1 b.1) m

/-- engine.format_params_values: the empty map serializes to a two-character
brace pair, any other map via json.dumps with sorted keys, whose separators
are a comma-space between members and a colon-space inside a member. -/
def format_params_values (params : List (String × String)) : String :=
  if params = [] then "\x7b\x7d"
  else
    "\x7b" ++
      joinSep ", " ((sortByKey params).map (fun kv => jsonStringLit kv.1 ++ ": " ++ jsonStringLit kv.2)) ++
    "\x7d"

/-- The identity key of a row or test case, the f-string of the source:
method, space, path or endpoint column, space, serialized map. -/
def caseKey (method path pv : String) : String :=
  method ++ " " ++ path ++ " " ++ pv

/-! ### Test case planning (engine.test_endpoint, lines 397 to 412)

The Planner proper: the list of (parameter map, tag) pairs that
test_endpoint builds before its execution loop.  The source guards the
sample cases with truthiness and length tests on the sample list. -/

/-- The test-case list of test_endpoint: the empty case always, then the
first sample map when the sample list is non-empty, then the second when it
has more than one element. -/
def plannedTestCases (env : Env) (ep : Endpoint) :
    Except String (List (List (String × String) × String)) := do
  let samples ← generate_param_samples env ep
  .ok ([(([] : List (String × String)), "empty")] ++
    match samples with
    | [] => []
    | [s0] => [(s0, "set_1")]
    | s0 :: s1 :: _ => [(s0, "set_1"), (s1, "set_2")])

/-- The identities of the planned test cases of an endpoint, in plan order. -/
def plannedIdentities (env : Env) (ep : Endpoint) : Except String (List String) :=
  (plannedTestCases env ep).map
    (List.map (fun c => caseKey ep.method ep.path (format_params_values c.1)))

/-! ### Executor (engine.clean_response_body and the loop body of
engine.test_endpoint, lines 414 to 463) -/

/-- engine.clean_response_body: empty text renders as the explicit
empty-body marker; otherwise the stripped text is pretty-printed when it
parses as JSON and truncated to the limit, or truncated raw on a parse
failure. -/
def clean_response_body (env : Env) (text : String) (limit : Nat) : String :=
  if text = "" then "<empty response>"
  else
    let t := strStrip text
    match env.jsonPretty t with
    | some pretty => strTake pretty limit
    | none => strTake t limit

/-- The probe URL: base with trailing slashes removed, path with a leading
slash ensured. -/
def urlOf (ep : Endpoint) (base_url : String) : String :=
  stripTrailingSlashes base_url ++
    (if strStartsWith ep.path "/" then ep.path else "/" ++ ep.path)

/-- One probe: the observed status set (a singleton in every reachable
state, see the safety theorem below) together with the response preview.
An Except.error from the transport is recorded as the ERROR sentinel with
the descriptive note prefix of the source. -/
def caseOutcome (env : Env) (method url : String) (params : List (String × String)) :
    List StatusOutcome × String :=
  match env.http method url params with
  | .ok (code, body) => ([StatusOutcome.code code], clean_response_body env body 2000)
  | .error msg => ([StatusOutcome.error], "Request Error: " ++ msg)

/-- The observed status set of one probe. -/
def observedStatuses (env : Env) (method url : String)
    (params : List (String × String)) : List StatusOutcome :=
  (caseOutcome env method url params).1

/-- Rendering of one status outcome in the status_codes column. -/
def outcomeStr : StatusOutcome → String
  | .code n => toString n
  | .error => "ERROR"

/-- The status_codes column: the comma-joined observed outcomes, or the
no-outcome marker for an empty set.  The source sorts the observed set
before joining; every reachable set is a singleton (proved below), on which
sorting is the identity, so the join is taken in construction order. -/
def statusCodesField (statuses : List StatusOutcome) : String :=
  if statuses = [] then "N/A"
  else joinSep "," (statuses.map outcomeStr)

/-- The row that the loop body of test_endpoint builds for one test case. -/
def runCase (env : Env) (ep : Endpoint) (url : String)
    (params : List (String × String)) (case_name : String) : Row :=
  let params_str := format_params_values params
  let outcome := caseOutcome env ep.method url params
  { endpoint := ep.path
    method := ep.method
    params_count := ep.params.length
    params_values := params_str
    status_codes := statusCodesField outcome.1
    response := outcome.2
    confidence := if StatusOutcome.code 200 ∈ outcome.1 then 60 else 0
    confidence_level := if StatusOutcome.code 200 ∈ outcome.1 then "Medium" else "Inconclusive"
    notes := "Test case: " ++ case_name }

/-! ### Result sink and completion ledger (engine.write_csv_header_if_needed,
append_csv_row, load_completed_endpoints) -/

/-- File lookup on the association-list filesystem. -/
def lookupFile : FS → String → Option FileContent
  | [], _ => none
  | (n, c) :: rest, name => if n = name then some c else lookupFile rest name

/-- Existence test, os.path.exists. -/
def fsExists (fs : FS) (name : String) : Bool :=
  (lookupFile fs name).isSome

/-- The data rows of a file; an absent or unreadable file contributes none. -/
def rowsOf (fs : FS) (name : String) : List (Option Row) :=
  match lookupFile fs name with
  | some (.rows rs) => rs
  | _ => []

/-- Appending one row to a file content; an append against a file whose
reads fail leaves the modeled content unknown, hence unchanged. -/
def appendContent : FileContent → Row → FileContent
  | .rows rs, r => .rows (rs ++ [some r])
  | .unreadable, _ => .unreadable

/-- Appending a row to a file, creating the file when absent (the append
mode of open creates missing files). -/
def appendRowToFs : FS → String → Row → FS
  | [], name, row => [(name, .rows [some row])]
  | (n, c) :: rest, name, row =>
      if n = name then (n, appendContent c row) :: rest
      else (n, c) :: appendRowToFs rest name row

/-- The mutable state a scan threads: the filesystem, and the index of the
next row-append attempt (consumed by the writeOk oracle of the
environment). -/
structure ScanState where
  fs : FS
  writeIdx : Nat
  deriving DecidableEq

/-- engine.append_csv_row: the whole write is wrapped in a try block; on
failure a warning is logged and the row is dropped, the caller never sees
an exception.  The secondary spreadsheet mirror of the source is the
excluded presentation collaborator and is not modeled. -/
def append_csv_row (env : Env) (filename : String) (row : Row) (st : ScanState) : ScanState :=
  if env.writeOk st.writeIdx then
    { fs := appendRowToFs st.fs filename row, writeIdx := st.writeIdx + 1 }
  else
    { st with writeIdx := st.writeIdx + 1 }

/-- engine.write_csv_header_if_needed: only a missing file is created (with
its header, which the row list leaves implicit); a creation failure raises
ValueError and is fatal. -/
def write_csv_header_if_needed (env : Env) (filename : String) (st : ScanState) :
    Except String ScanState :=
  if fsExists st.fs filename then .ok st
  else if env.createOk then .ok { st with fs := st.fs ++ [(filename, .rows [])] }
  else .error ("Failed to create CSV file " ++ filename)

/-- The ledger identity rebuilt from one stored row, the f-string of
load_completed_endpoints over the method, endpoint and params_values
columns. -/
def rowKey (r : Row) : String :=
  caseKey r.method r.endpoint r.params_values

/-- Replaying stored rows: identities accumulate row by row and a row whose
read raises aborts the replay, keeping what was accumulated so far. -/
def ledgerKeys : List (Option Row) → List String
  | [] => []
  | none :: _ => []
  | some r :: rest => rowKey r :: ledgerKeys rest

/-- engine.load_completed_endpoints: an absent file yields the empty
ledger; a file that cannot be opened yields the empty ledger; otherwise the
rows are replayed until a read failure. -/
def load_completed_endpoints (fs : FS) (filename : String) : List String :=
  match lookupFile fs filename with
  | none => []
  | some .unreadable => []
  | some (.rows rs) => ledgerKeys rs

/-! ### Endpoint execution (engine.test_endpoint) -/

/-- engine.test_endpoint: build the URL, plan the test cases (sample
generation can raise), then execute and append each case in tag order.
The verbose prints and the progress arguments of the source have no
observable effect on the modeled state and are dropped. -/
def test_endpoint (env : Env) (ep : Endpoint) (base_url csv_file : String)
    (st : ScanState) : Except String ScanState := do
  let url := urlOf ep base_url
  let cases ← plannedTestCases env ep
  .ok (cases.foldl
    (fun s c => append_csv_row env csv_file (runCase env ep url c.1 c.2) s) st)

/-! ### Output namer (engine.extract_hostname_from_url,
engine.get_versioned_filename) -/

/-- Collapse runs of hyphens to a single hyphen (the second substitution of
extract_hostname_from_url). -/
def collapseHyphens (l : List Char) : List Char :=
  l.foldr (fun c acc => if c = '-' ∧ acc.head? = some '-' then acc else c :: acc) []

/-- ASCII lower-casing of one character (the hostnames at hand are ASCII). -/
def charToLower (c : Char) : Char :=
  if 'A' ≤ c ∧ c ≤ 'Z' then Char.ofNat (c.toNat + 32) else c

/-- engine.extract_hostname_from_url: the parsed hostname (urlparse is the
hostnameOf oracle of the environment), port stripped at the first colon,
non-alphanumeric characters replaced by hyphens, hyphen runs collapsed,
lower-cased.  The enclosing try block of the source is unreachable for the
total oracle and is not modeled. -/
def extract_hostname_from_url (env : Env) (base_url : String) : String :=
  let hostname := env.hostnameOf base_url
  let noPort := hostname.data.takeWhile (fun c => c ≠ ':')
  let subbed := noPort.map (fun c => if c.isAlphanum ∨ c = '-' then c else '-')
  String.mk ((collapseHyphens subbed).map charToLower)

/-- os.path.splitext: split at the last dot that follows the last slash.
The special casing of leading dots in hidden file names is not modeled; no
path at hand starts with a dot. -/
def splitext (p : String) : String × String :=
  let rev := p.data.reverse
  let cand := rev.takeWhile (fun c => c ≠ '.' ∧ c ≠ '/')
  match rev.drop cand.length with
  | '.' :: before => (String.mk before.reverse, String.mk ('.' :: cand.reverse))
  | _ => (p, "")

/-- os.path.dirname: everything before the last slash, empty without one. -/
def dirnameOf (p : String) : String :=
  if p.data.contains '/' then
    String.mk (((p.data.reverse.dropWhile (fun c => c ≠ '/')).drop 1).reverse)
  else ""

/-- The names of the files that exist on the modeled filesystem. -/
def fileNames (fs : FS) : List String :=
  fs.map (fun e => e.1)

/-- os.listdir on the modeled filesystem: bare entry names of the files
directly inside the directory.  The current directory holds the slash-free
paths. -/
def listdir (fs : FS) (d : String) : List String :=
  if d = "." then (fileNames fs).filter (fun n => !(n.data.contains '/'))
  else
    (fileNames fs).filterMap (fun n =>
      if strStartsWith n (d ++ "/") then
        let rest := strDrop n (d.data.length + 1)
        if rest.data.contains '/' then none else some rest
      else none)

/-- Numeric value of a digit string. -/
def digitsToNat (l : List Char) : Nat :=
  l.foldl (fun acc c => acc * 10 + (c.toNat - '0'.toNat)) 0

/-- The regular-expression match of get_versioned_filename against one
directory entry: the escaped base name, an optional digit group, the
escaped extension, anchored at both ends.  The result is none for no
match, some none for the bare base file, and the captured number
otherwise. -/
def matchSuffix (base_name ext name : String) : Option (Option Nat) :=
  if name.data.length < base_name.data.length + ext.data.length then none
  else if strStartsWith name base_name ∧ strEndsWith name ext then
    let mid := strDropRight (strDrop name base_name.data.length) ext.data.length
    if mid.data = [] then some none
    else if mid.data.all Char.isDigit then some (some (digitsToNat mid.data))
    else none
  else none

/-- One step of the version-scanning loop of get_versioned_filename: a
numbered match raises the running maximum to its number, a bare-base match
takes a maximum with minus one, a non-match changes nothing. -/
def stepVer (base_name ext : String) (acc : Int) (n : String) : Int :=
  match matchSuffix base_name ext n with
  | some (some v) => max acc (v : Int)
  | some none => max acc (-1)
  | none => acc

/-- The version-scanning loop of get_versioned_filename: the running
maximum starts at minus one. -/
def maxVersion (base_name ext : String) (names : List String) : Int :=
  names.foldl (stepVer base_name ext) (-1)

/-- engine.get_versioned_filename: a base name that does not exist is used
as-is; otherwise the directory is scanned and the successor of the maximal
found version is appended, with the explicit branch of the source for a
scan that found nothing. -/
def get_versioned_filename (fs : FS) (base_filename : String) : String :=
  if !(fsExists fs base_filename) then base_filename
  else
    let be := splitext base_filename
    let d := dirnameOf base_filename
    let directory := if d = "" then "." else d
    let next : Int := maxVersion be.1 be.2 (listdir fs directory) + 1
    if next = 0 then be.1 ++ "1" ++ be.2
    else be.1 ++ toString next.toNat ++ be.2

/-! ### Scan orchestrator (engine.run_scan, lines 527 to 591)

The source first loads the specification document and extracts the catalog
(load_openapi and extract_endpoints, the external parsing collaborator);
the embedding starts after that step, taking the extracted catalog and the
resolved base URL as inputs. -/

/-- The completion test of the orchestrator loop, lines 556 to 572: the
empty-case key always, the two sample keys when the endpoint has
parameters (sample generation can raise), and the conjunction of ledger
membership over the keys that were set. -/
def endpointDone (env : Env) (completed : List String) (ep : Endpoint) :
    Except String Bool := do
  let empty_key := caseKey ep.method ep.path "\x7b\x7d"
  if ep.params = [] then
    .ok (completed.contains empty_key)
  else do
    let samples ← generate_param_samples env ep
    let set1_key := match samples with
      | [] => none
      | s0 :: _ => some (caseKey ep.method ep.path (format_params_values s0))
    let set2_key := match samples with
      | _ :: s1 :: _ => some (caseKey ep.method ep.path (format_params_values s1))
      | _ => none
    .ok (completed.contains empty_key &&
      (match set1_key with | some k => completed.contains k | none => true) &&
      (match set2_key with | some k => completed.contains k | none => true))

/-- One iteration of the orchestrator loop: a fully completed endpoint is
skipped (its effect on the progress counter is display-only and not
modeled), any other endpoint is executed in full. -/
def scanStep (env : Env) (base_url output_file : String) (completed : List String)
    (st : ScanState) (ep : Endpoint) : Except String ScanState := do
  let done ← endpointDone env completed ep
  if done then .ok st
  else test_endpoint env ep base_url output_file st

/-- engine.run_scan after catalog extraction: derive the output name from
the hostname when none is supplied, version it, create the file when
missing, rebuild the ledger once, then fold the orchestrator loop over the
catalog in declaration order. -/
def run_scan (env : Env) (endpoints : List Endpoint) (base_url : String)
    (output_file? : Option String) (fs0 : FS) : Except String ScanState := do
  let name0 := match output_file? with
    | some f => f
    | none => extract_hostname_from_url env base_url ++ ".csv"
  let output_file := get_versioned_filename fs0 name0
  let st0 : ScanState := { fs := fs0, writeIdx := 0 }
  let st1 ← write_csv_header_if_needed env output_file st0
  let completed := load_completed_endpoints st1.fs output_file
  endpoints.foldlM (fun st ep => scanStep env base_url output_file completed st ep) st1

/-- The rows of a file in the state of a finished run; a run that raised
has no rows to inspect. -/
def rowsOfResult (res : Except String ScanState) (name : String) : List (Option Row) :=
  match res with
  | .ok st => rowsOf st.fs name
  | .error _ => []

/-- How many stored rows of a list carry a given identity. -/
def countKey (rs : List (Option Row)) (k : String) : Nat :=
  rs.countP (fun o => match o with | some r => rowKey r == k | none => false)

/-! ### Concrete instances

A minimal catalog and environment used by the concrete theorems: one
parameterless endpoint and one endpoint with a single string parameter,
probed against a server that answers 200 with an empty body, with a
provider whose calls fail (exercising the fallback literal) and a disk
that accepts every write. -/

/-- A parameterless endpoint. -/
def epItems : Endpoint :=
  { path := "/items", method := "GET", params := [] }

/-- An endpoint with one string parameter. -/
def epUsers : Endpoint :=
  { path := "/users/\x7bid\x7d", method := "GET",
    params := [{ name := "id", type := "string", description := "user id" }] }

/-- The standard concrete environment. -/
def envC : Env where
  apiKey := some "k"
  respond := fun _ _ _ _ => none
  http := fun _ _ _ => .ok (200, "")
  jsonPretty := fun _ => none
  hostnameOf := fun _ => "example.com"
  writeOk := fun _ => true
  createOk := true

/-- The standard environment with the provider key unset. -/
def envNoKey : Env :=
  { envC with apiKey := none }

/-- The standard environment with a failing transport. -/
def envErr : Env :=
  { envC with http := fun _ _ _ => .error "boom" }

/-- The standard environment whose first row-append attempt fails on
disk. -/
def envBadFirstWrite : Env :=
  { envC with writeOk := fun n => n != 0 }

/-- The row the standard environment writes for the empty case of the
parameterless endpoint. -/
def rowItemsEmpty : Row :=
  { endpoint := "/items", method := "GET", params_count := 0,
    params_values := "\x7b\x7d", status_codes := "200",
    response := "<empty response>", confidence := 60,
    confidence_level := "Medium", notes := "Test case: empty" }

/-- The redundant second row of the parameterless endpoint, identical to
the empty case except for its tag. -/
def rowItemsSet1 : Row :=
  { rowItemsEmpty with notes := "Test case: set_1" }

end UnauthChecker

namespace UnauthChecker

/-! ## Shared lemmas -/

/-- A file name is safe for appending when it does not resolve to an
unreadable file (it may be absent). -/
def csvOk (fs : FS) (name : String) : Bool :=
  match lookupFile fs name with
  | some .unreadable => false
  | _ => true

/-- The rows that survive a sequence of append attempts starting at a given
write index: a row is kept exactly when its attempt succeeds. -/
def keptRows (env : Env) : Nat → List Row → List (Option Row)
  | _, [] => []
  | i, r :: rest =>
      if env.writeOk i then some r :: keptRows env (i + 1) rest
      else keptRows env (i + 1) rest

theorem keptRows_allOk (env : Env) (h : ∀ n, env.writeOk n = true) :
    ∀ (i : Nat) (rows : List Row), keptRows env i rows = rows.map some := by
  intro i rows
  induction rows generalizing i with
  | nil => rfl
  | cons r rest ih => simp [keptRows, h i, ih]

theorem appendRow_rowsOf (fs : FS) (name : String) (r : Row)
    (h : csvOk fs name = true) :
    rowsOf (appendRowToFs fs name r) name = rowsOf fs name ++ [some r] ∧
    csvOk (appendRowToFs fs name r) name = true := by
  induction fs with
  | nil => simp [appendRowToFs, rowsOf, lookupFile, csvOk]
  | cons e rest ih =>
    obtain ⟨n, c⟩ := e
    by_cases hn : n = name
    · subst hn
      cases c with
      | unreadable => simp [csvOk, lookupFile] at h
      | rows rs => simp [appendRowToFs, rowsOf, lookupFile, csvOk, appendContent]
    · have h' : csvOk rest name = true := by
        simpa [csvOk, lookupFile, hn] using h
      have hrec := ih h'
      simpa [appendRowToFs, hn, rowsOf, lookupFile, csvOk] using hrec

theorem fold_append_spec (env : Env) (csv : String) :
    ∀ (rows : List Row) (st : ScanState), csvOk st.fs csv = true →
      (rows.foldl (fun s r => append_csv_row env csv r s) st).writeIdx =
        st.writeIdx + rows.length ∧
      rowsOf (rows.foldl (fun s r => append_csv_row env csv r s) st).fs csv =
        rowsOf st.fs csv ++ keptRows env st.writeIdx rows ∧
      csvOk (rows.foldl (fun s r => append_csv_row env csv r s) st).fs csv = true := by
  intro rows
  induction rows with
  | nil => intro st h; simp [keptRows, h]
  | cons r rest ih =>
    intro st h
    simp only [List.foldl_cons]
    by_cases hw : env.writeOk st.writeIdx
    · have hstep : append_csv_row env csv r st =
          { fs := appendRowToFs st.fs csv r, writeIdx := st.writeIdx + 1 } := by
        simp [append_csv_row, hw]
      obtain ⟨hrows, hok⟩ := appendRow_rowsOf st.fs csv r h
      have hrec := ih { fs := appendRowToFs st.fs csv r, writeIdx := st.writeIdx + 1 } hok
      rw [hstep]
      refine ⟨by simpa [Nat.add_assoc, Nat.add_comm, Nat.add_left_comm] using hrec.1, ?_, hrec.2.2⟩
      rw [hrec.2.1]
      simp [hrows, keptRows, hw]
    · have hstep : append_csv_row env csv r st =
          { fs := st.fs, writeIdx := st.writeIdx + 1 } := by
        simp [append_csv_row, hw]
      have hrec := ih { fs := st.fs, writeIdx := st.writeIdx + 1 } h
      rw [hstep]
      refine ⟨by simpa [Nat.add_assoc, Nat.add_comm, Nat.add_left_comm] using hrec.1, ?_, hrec.2.2⟩
      rw [hrec.2.1]
      simp [keptRows, hw]

theorem ledgerKeys_sound :
    ∀ (rs : List (Option Row)) (k : String), k ∈ ledgerKeys rs →
      ∃ r, Option.some r ∈ rs ∧ k = rowKey r := by
  intro rs
  induction rs with
  | nil => simp [ledgerKeys]
  | cons o rest ih =>
    cases o with
    | none => simp [ledgerKeys]
    | some r =>
      intro k hk
      rcases List.mem_cons.mp hk with h | h
      · exact ⟨r, List.mem_cons_self _ _, h⟩
      · obtain ⟨r', hr', hk'⟩ := ih k h
        exact ⟨r', List.mem_cons_of_mem _ hr', hk'⟩

theorem dirname_no_slash (p : String) (h : p.data.contains '/' = false) :
    dirnameOf p = "" := by
  unfold dirnameOf
  rw [h]
  rfl

/-- The numbered version suffixes found among a list of directory entries. -/
def foundVersions (base_name ext : String) (names : List String) : List Nat :=
  names.filterMap (fun n =>
    match matchSuffix base_name ext n with
    | some (some v) => some v
    | _ => none)

theorem foldVer_spec (base_name ext : String) :
    ∀ (names : List String) (acc : Int), -1 ≤ acc →
      (acc ≤ names.foldl (stepVer base_name ext) acc) ∧
      (∀ m ∈ foundVersions base_name ext names,
        (m : Int) ≤ names.foldl (stepVer base_name ext) acc) ∧
      (names.foldl (stepVer base_name ext) acc = acc ∨
        ∃ m ∈ foundVersions base_name ext names,
          (m : Int) = names.foldl (stepVer base_name ext) acc) := by
  intro names
  induction names with
  | nil => intro acc _; simp [foundVersions]
  | cons n rest ih =>
    intro acc hacc
    simp only [List.foldl_cons]
    rcases hm : matchSuffix base_name ext n with _ | g
    · have hstep : stepVer base_name ext acc n = acc := by simp [stepVer, hm]
      have hfound : foundVersions base_name ext (n :: rest) =
          foundVersions base_name ext rest := by simp [foundVersions, hm]
      rw [hstep, hfound]
      exact ih acc hacc
    · cases g with
      | none =>
        have hstep : stepVer base_name ext acc n = acc := by
          simp [stepVer, hm, max_eq_left hacc]
        have hfound : foundVersions base_name ext (n :: rest) =
            foundVersions base_name ext rest := by simp [foundVersions, hm]
        rw [hstep, hfound]
        exact ih acc hacc
      | some v =>
        have hstep : stepVer base_name ext acc n = max acc (v : Int) := by
          simp [stepVer, hm]
        have hfound : foundVersions base_name ext (n :: rest) =
            v :: foundVersions base_name ext rest := by simp [foundVersions, hm]
        have hacc' : -1 ≤ max acc (v : Int) := le_trans hacc (le_max_left _ _)
        obtain ⟨h1, h2, h3⟩ := ih (max acc (v : Int)) hacc'
        rw [hstep, hfound]
        refine ⟨le_trans (le_max_left _ _) h1, ?_, ?_⟩
        · intro m hmem
          rcases List.mem_cons.mp hmem with h | h
          · subst h; exact le_trans (le_max_right _ _) h1
          · exact h2 m h
        · rcases h3 with h | ⟨m, hmem, hme⟩
          · rcases le_total acc (v : Int) with hle | hle
            · refine Or.inr ⟨v, List.mem_cons_self _ _, ?_⟩
              rw [h, max_eq_right hle]
            · refine Or.inl ?_
              rw [h, max_eq_left hle]
          · exact Or.inr ⟨m, List.mem_cons_of_mem _ hmem, hme⟩

/-! ## Claims -/

/-- C1.  The claim says a zero-parameter endpoint yields exactly one test
case; the code plans two.  generate_param_samples returns the one-element
list holding the empty map for a parameterless endpoint, so the truthiness
guard of test_endpoint appends a redundant set_1 case next to the empty
case, both with the empty serialized map, and two rows are appended for the
endpoint (endpoints with parameters do get three cases).  This theorem
evaluates the planner and the executed row count at such an endpoint. -/
theorem c1_zero_param_endpoint_plans_two_cases :
    plannedTestCases envC epItems = .ok [([], "empty"), ([], "set_1")] ∧
    (rowsOfResult
      (test_endpoint envC epItems "http://x" "c1.csv"
        { fs := [("c1.csv", FileContent.rows [])], writeIdx := 0 }) "c1.csv").length = 2 ∧
    plannedTestCases envC epUsers =
      .ok [([], "empty"), ([("id", "test")], "set_1"), ([("id", "test")], "set_2")] :=
  ⟨rfl, rfl, rfl⟩

/-- C2.  The claim says a second run with the same caller-supplied output
path resumes that file and appends zero rows; the code versions even a
caller-supplied path, so the second run writes a fresh file and re-appends
everything.  Here the first run with explicit path out.csv produces out.csv
with two rows; the second run over that very filesystem, with the same
explicit path and an unchanged environment, resolves the name to out1.csv,
rebuilds an empty ledger from that fresh file, and appends both rows again
while out.csv stays untouched. -/
theorem c2_explicit_path_rerun_not_idempotent :
    run_scan envC [epItems] "http://x" (some "out.csv") [] =
      .ok { fs := [("out.csv", FileContent.rows [some rowItemsEmpty, some rowItemsSet1])],
            writeIdx := 2 } ∧
    get_versioned_filename
      [("out.csv", FileContent.rows [some rowItemsEmpty, some rowItemsSet1])] "out.csv" =
      "out1.csv" ∧
    run_scan envC [epItems] "http://x" (some "out.csv")
        [("out.csv", FileContent.rows [some rowItemsEmpty, some rowItemsSet1])] =
      .ok { fs := [("out.csv", FileContent.rows [some rowItemsEmpty, some rowItemsSet1]),
                   ("out1.csv", FileContent.rows [some rowItemsEmpty, some rowItemsSet1])],
            writeIdx := 2 } :=
  ⟨rfl, rfl, rfl⟩

/-- C3, counterexample.  Sample generation does raise to its caller when
the provider key is unset: agent construction happens lazily inside the
planner and RuntimeError propagates, so the planner is not total for
endpoints with parameters. -/
theorem c3_counterexample_missing_key_raises :
    generate_param_samples envNoKey epUsers =
      .error "MISTRAL_API_KEY environment variable not set" ∧
    run_scan envNoKey [epUsers] "http://x" (some "nk.csv") [] =
      .error "MISTRAL_API_KEY environment variable not set" :=
  ⟨rfl, rfl⟩

/-- C3, amended.  Once the agent is constructed (the key is set), sample
generation never raises: every per-call provider failure is absorbed and
yields the fixed fallback literal, and the planner succeeds on every
endpoint. -/
theorem c3_provider_failures_absorbed_when_key_set (env : Env) (k : String)
    (hk : env.apiKey = some k) :
    (∀ ep : Endpoint, ∃ samples, generate_param_samples env ep = .ok samples) ∧
    (∀ (i : Nat) (t n d : String), env.respond i t n d = none →
      generate_sample_value env i t n d = "test") := by
  constructor
  · intro ep
    by_cases hp : ep.params = []
    · exact ⟨[[]], by simp [generate_param_samples, hp]⟩
    · refine ⟨(List.range 2).map (fun i => buildSample env i ep), ?_⟩
      simp only [generate_param_samples, hp, get_agent, hk, if_false]
      rfl
  · intro i t n d h
    simp [generate_sample_value, h]

/-- C3, witness for the amended theorem at the concrete environment. -/
theorem c3_witness :
    (∃ samples, generate_param_samples envC epUsers = .ok samples) ∧
    generate_sample_value envC 0 "string" "id" "user id" = "test" :=
  ⟨(c3_provider_failures_absorbed_when_key_set envC "k" rfl).1 epUsers,
   (c3_provider_failures_absorbed_when_key_set envC "k" rfl).2 0 "string" "id" "user id" rfl⟩

/-- C4.  The written row of a test case has confidence 60 and level Medium
exactly when the observed status set contains 200, and confidence 0 and
level Inconclusive otherwise, in particular whenever the transport failed
and the set holds the ERROR sentinel. -/
theorem c4_confidence_two_tier (env : Env) (ep : Endpoint) (url : String)
    (params : List (String × String)) (tag : String) :
    (StatusOutcome.code 200 ∈ observedStatuses env ep.method url params →
      (runCase env ep url params tag).confidence = 60 ∧
      (runCase env ep url params tag).confidence_level = "Medium") ∧
    (StatusOutcome.code 200 ∉ observedStatuses env ep.method url params →
      (runCase env ep url params tag).confidence = 0 ∧
      (runCase env ep url params tag).confidence_level = "Inconclusive") ∧
    (∀ msg, env.http ep.method url params = .error msg →
      StatusOutcome.code 200 ∉ observedStatuses env ep.method url params ∧
      (runCase env ep url params tag).confidence = 0 ∧
      (runCase env ep url params tag).confidence_level = "Inconclusive") := by
  rcases henv : env.http ep.method url params with msg | pr
  · simp [runCase, observedStatuses, caseOutcome, henv]
  · obtain ⟨c, body⟩ := pr
    by_cases hc : c = 200 <;>
      simp [runCase, observedStatuses, caseOutcome, henv, hc]

/-- C4, witness: a 200 answer scores Medium and a transport failure scores
Inconclusive, at concrete environments. -/
theorem c4_witness :
    ((runCase envC epItems "http://x/items" [] "empty").confidence = 60 ∧
      (runCase envC epItems "http://x/items" [] "empty").confidence_level = "Medium") ∧
    ((runCase envErr epItems "http://x/items" [] "empty").confidence = 0 ∧
      (runCase envErr epItems "http://x/items" [] "empty").confidence_level = "Inconclusive") :=
  ⟨(c4_confidence_two_tier envC epItems "http://x/items" [] "empty").1 (by decide),
   ((c4_confidence_two_tier envErr epItems "http://x/items" [] "empty").2.2 "boom" rfl).2⟩

theorem range_two : List.range 2 = [0, 1] := rfl

/-- C5.  The orchestrator skips an endpoint exactly when every identity of
its planned test-case set is in the ledger, and an endpoint that is
executed has every one of its planned cases run and appended, covered or
not: test_endpoint never consults the ledger. -/
theorem c5_skip_iff_all_identities_in_ledger (env : Env) (completed : List String)
    (ep : Endpoint) (cases : List (List (String × String) × String))
    (hc : plannedTestCases env ep = .ok cases) :
    endpointDone env completed ep =
      .ok ((cases.map (fun c => caseKey ep.method ep.path (format_params_values c.1))).all
        (fun k => completed.contains k)) ∧
    (∀ (base csv : String) (st : ScanState), csvOk st.fs csv = true →
      (∀ n, env.writeOk n = true) →
      ∃ st', test_endpoint env ep base csv st = .ok st' ∧
        rowsOf st'.fs csv = rowsOf st.fs csv ++
          cases.map (fun c => some (runCase env ep (urlOf ep base) c.1 c.2))) := by
  constructor
  · by_cases hp : ep.params = []
    · have hgen : generate_param_samples env ep = .ok [[]] := by
        simp [generate_param_samples, hp]
      have hpt : plannedTestCases env ep = .ok [([], "empty"), ([], "set_1")] := by
        simp only [plannedTestCases, hgen]
        rfl
      have hcases : cases = [([], "empty"), ([], "set_1")] :=
        (Except.ok.inj (hpt.symm.trans hc)).symm
      subst hcases
      have hdone : endpointDone env completed ep =
          .ok (completed.contains (caseKey ep.method ep.path "\x7b\x7d")) := by
        simp only [endpointDone, if_pos hp]
      rw [hdone]
      simp only [List.map_cons, List.map_nil, List.all_cons, List.all_nil,
        Bool.and_true, Bool.and_self]
      rfl
    · rcases hk : env.apiKey with _ | key
      · have hgen : generate_param_samples env ep =
            .error "MISTRAL_API_KEY environment variable not set" := by
          simp only [generate_param_samples, if_neg hp, get_agent, hk]
          rfl
        have hpt : plannedTestCases env ep =
            .error "MISTRAL_API_KEY environment variable not set" := by
          simp only [plannedTestCases, hgen]
          rfl
        rw [hpt] at hc
        exact absurd hc (by simp)
      · have hgen : generate_param_samples env ep =
            .ok [buildSample env 0 ep, buildSample env 1 ep] := by
          simp only [generate_param_samples, if_neg hp, get_agent, hk, range_two,
            List.map_cons, List.map_nil]
          rfl
        have hpt : plannedTestCases env ep =
            .ok [([], "empty"), (buildSample env 0 ep, "set_1"),
                 (buildSample env 1 ep, "set_2")] := by
          simp only [plannedTestCases, hgen]
          rfl
        have hcases : cases =
            [([], "empty"), (buildSample env 0 ep, "set_1"),
             (buildSample env 1 ep, "set_2")] :=
          (Except.ok.inj (hpt.symm.trans hc)).symm
        subst hcases
        have hdone : endpointDone env completed ep =
            .ok (completed.contains (caseKey ep.method ep.path "\x7b\x7d") &&
              completed.contains
                (caseKey ep.method ep.path (format_params_values (buildSample env 0 ep))) &&
              completed.contains
                (caseKey ep.method ep.path (format_params_values (buildSample env 1 ep)))) := by
          simp only [endpointDone, if_neg hp, hgen]
          rfl
        rw [hdone]
        simp only [List.map_cons, List.map_nil, List.all_cons, List.all_nil,
          Bool.and_true, Bool.and_assoc]
        rfl
  · intro base csv st hcsv hw
    have hrows := fold_append_spec env csv
      (cases.map (fun c => runCase env ep (urlOf ep base) c.1 c.2)) st hcsv
    have hmap : (cases.map (fun c => runCase env ep (urlOf ep base) c.1 c.2)).foldl
        (fun s r => append_csv_row env csv r s) st =
        cases.foldl (fun s c => append_csv_row env csv (runCase env ep (urlOf ep base) c.1 c.2) s) st := by
      simp [List.foldl_map]
    rw [hmap] at hrows
    refine ⟨cases.foldl
      (fun s c => append_csv_row env csv (runCase env ep (urlOf ep base) c.1 c.2) s) st, ?_, ?_⟩
    · simp only [test_endpoint, hc]
      rfl
    · rw [hrows.2.1, keptRows_allOk env hw]
      simp [List.map_map, Function.comp]

/-- C5, witness: with an empty ledger the parameterless endpoint is not
skipped, and executing it appends a row for each of its planned cases. -/
theorem c5_witness :
    endpointDone envC [] epItems = .ok false ∧
    (∃ st', test_endpoint envC epItems "http://x" "w5.csv"
        { fs := [("w5.csv", FileContent.rows [])], writeIdx := 0 } = .ok st' ∧
      rowsOf st'.fs "w5.csv" = [some rowItemsEmpty, some rowItemsSet1]) := by
  have h := c5_skip_iff_all_identities_in_ledger envC [] epItems
    [([], "empty"), ([], "set_1")] rfl
  refine ⟨h.1, ?_⟩
  obtain ⟨st', h1, h2⟩ := h.2 "http://x" "w5.csv"
    { fs := [("w5.csv", FileContent.rows [])], writeIdx := 0 } rfl (fun _ => rfl)
  exact ⟨st', h1, h2⟩

/-- C6, counterexample.  A run interrupted after one row of the
parameterless endpoint leaves dup.csv holding its identity once; the
restart with the same output path is versioned to dup1.csv, whose empty
ledger forces full re-execution, and the fresh file receives the same
identity twice (the planner emits two cases with the identical empty
serialized map).  An identity is appended twice to one output file, against
the claimed invariant. -/
theorem c6_counterexample_duplicate_identity :
    countKey
      (rowsOf [("dup.csv", FileContent.rows [some rowItemsEmpty])] "dup.csv")
      (caseKey "GET" "/items" "\x7b\x7d") = 1 ∧
    countKey
      (rowsOfResult
        (run_scan envC [epItems] "http://x" (some "dup.csv")
          [("dup.csv", FileContent.rows [some rowItemsEmpty])]) "dup1.csv")
      (caseKey "GET" "/items" "\x7b\x7d") = 2 :=
  ⟨rfl, rfl⟩

/-- C6, amended.  Restart granularity is the whole endpoint: an endpoint
whose complete planned identity set is in the rebuilt ledger appends
nothing, while an endpoint with any missing identity is fully re-executed,
so identities already present may be appended again. -/
theorem c6_completed_endpoint_appends_nothing (env : Env) (base out : String)
    (completed : List String) (st : ScanState) (ep : Endpoint)
    (h : endpointDone env completed ep = .ok true) :
    scanStep env base out completed st ep = .ok st := by
  simp only [scanStep, h]
  rfl

/-- C6, witness: with its only identity in the ledger, the parameterless
endpoint is skipped and the state is untouched. -/
theorem c6_witness :
    scanStep envC "http://x" "w6.csv" [caseKey "GET" "/items" "\x7b\x7d"]
      { fs := [], writeIdx := 0 } epItems = .ok { fs := [], writeIdx := 0 } :=
  c6_completed_endpoint_appends_nothing envC "http://x" "w6.csv"
    [caseKey "GET" "/items" "\x7b\x7d"] { fs := [], writeIdx := 0 } epItems rfl

/-- C7, counterexample.  A ledger file whose second row fails to read does
not degrade to the empty set: the identity of the first row is kept, so the
rebuilt ledger is a non-empty proper subset of nothing the claim allows. -/
theorem c7_counterexample_truncated_ledger :
    load_completed_endpoints
      [("c7.csv", FileContent.rows [some rowItemsEmpty, none])] "c7.csv" =
      [caseKey "GET" "/items" "\x7b\x7d"] ∧
    load_completed_endpoints
      [("c7.csv", FileContent.rows [some rowItemsEmpty, none])] "c7.csv" ≠ [] :=
  ⟨rfl, by decide⟩

/-- C7, amended.  Ledger construction never raises: an absent file and a
file that cannot be opened both yield the empty ledger, and a failure
partway through reading yields exactly the identities of the rows read
before the failure point, each coming from a genuinely stored row. -/
theorem c7_ledger_degrades_without_raising (fs : FS) (name : String) :
    ((lookupFile fs name).isNone → load_completed_endpoints fs name = []) ∧
    (lookupFile fs name = some FileContent.unreadable →
      load_completed_endpoints fs name = []) ∧
    (∀ k ∈ load_completed_endpoints fs name,
      ∃ r, Option.some r ∈ rowsOf fs name ∧ k = rowKey r) := by
  rcases hl : lookupFile fs name with _ | c
  · simp [load_completed_endpoints, hl]
  · cases c with
    | unreadable => simp [load_completed_endpoints, hl]
    | rows rs =>
      refine ⟨by simp [hl], by simp [load_completed_endpoints, hl], ?_⟩
      intro k hk
      simp only [load_completed_endpoints, hl] at hk
      have := ledgerKeys_sound rs k hk
      simpa [rowsOf, hl] using this

/-- C7, witness for the amended theorem: the absent and the unreadable
file both yield the empty ledger. -/
theorem c7_witness :
    load_completed_endpoints [] "w7.csv" = [] ∧
    load_completed_endpoints [("w7.csv", FileContent.unreadable)] "w7.csv" = [] :=
  ⟨(c7_ledger_degrades_without_raising [] "w7.csv").1 rfl,
   (c7_ledger_degrades_without_raising [("w7.csv", FileContent.unreadable)] "w7.csv").2.1 rfl⟩

/-- C9.  A row-append failure never aborts the endpoint run: whenever the
planner succeeds, test_endpoint succeeds for every pattern of disk
failures, every planned case is still attempted (the write index advances
by the full case count), and the file gains exactly the rows whose append
attempt succeeded, in order, the failed rows being dropped. -/
theorem c9_write_failures_never_abort (env : Env) (ep : Endpoint)
    (base csv : String) (st : ScanState)
    (cases : List (List (String × String) × String))
    (hc : plannedTestCases env ep = .ok cases) (hs : csvOk st.fs csv = true) :
    ∃ st', test_endpoint env ep base csv st = .ok st' ∧
      st'.writeIdx = st.writeIdx + cases.length ∧
      rowsOf st'.fs csv = rowsOf st.fs csv ++
        keptRows env st.writeIdx
          (cases.map (fun c => runCase env ep (urlOf ep base) c.1 c.2)) := by
  have hrows := fold_append_spec env csv
    (cases.map (fun c => runCase env ep (urlOf ep base) c.1 c.2)) st hs
  have hmap : (cases.map (fun c => runCase env ep (urlOf ep base) c.1 c.2)).foldl
      (fun s r => append_csv_row env csv r s) st =
      cases.foldl (fun s c => append_csv_row env csv (runCase env ep (urlOf ep base) c.1 c.2) s) st := by
    simp [List.foldl_map]
  rw [hmap] at hrows
  refine ⟨cases.foldl
    (fun s c => append_csv_row env csv (runCase env ep (urlOf ep base) c.1 c.2) s) st, ?_, ?_, ?_⟩
  · simp only [test_endpoint, hc]
    rfl
  · simpa using hrows.1
  · exact hrows.2.1

/-- C9, witness: the first append attempt fails, the first row is dropped,
and the run still attempts and persists the second row. -/
theorem c9_witness :
    ∃ st', test_endpoint envBadFirstWrite epItems "http://x" "w9.csv"
        { fs := [("w9.csv", FileContent.rows [])], writeIdx := 0 } = .ok st' ∧
      st'.writeIdx = 2 ∧
      rowsOf st'.fs "w9.csv" = [some rowItemsSet1] :=
  c9_write_failures_never_abort envBadFirstWrite epItems "http://x" "w9.csv"
    { fs := [("w9.csv", FileContent.rows [])], writeIdx := 0 }
    [([], "empty"), ([], "set_1")] rfl rfl

/-- C10.  Every executed test case observes exactly one outcome: the single
status code of the one HTTP call, or the ERROR sentinel on a transport
failure.  The status_codes column is therefore always that single value and
the no-outcome branch of the column is unreachable. -/
theorem c10_status_set_is_singleton (env : Env) (method url : String)
    (params : List (String × String)) :
    ∃ s, observedStatuses env method url params = [s] ∧
      observedStatuses env method url params ≠ [] ∧
      statusCodesField (observedStatuses env method url params) = outcomeStr s := by
  rcases henv : env.http method url params with msg | pr
  · exact ⟨.error, by simp [observedStatuses, caseOutcome, henv, statusCodesField, joinSep]⟩
  · obtain ⟨c, body⟩ := pr
    exact ⟨.code c, by simp [observedStatuses, caseOutcome, henv, statusCodesField, joinSep]⟩

/-- C10, witness at the concrete environment. -/
theorem c10_witness :
    ∃ s, observedStatuses envC "GET" "http://x/items" [] = [s] ∧
      observedStatuses envC "GET" "http://x/items" [] ≠ [] ∧
      statusCodesField (observedStatuses envC "GET" "http://x/items" []) = outcomeStr s :=
  c10_status_set_is_singleton envC "GET" "http://x/items" []

/-- C8, counterexample.  For a base path with a directory component the
sibling scan is dead: the pattern embeds the directory prefix but is
matched against bare entry names, so no sibling ever matches.  With
d/host.csv and d/host1.csv both present, the code picks d/host1.csv, a file
that already exists, instead of the d/host2.csv that the claimed
smallest-unused-suffix rule requires. -/
theorem c8_counterexample_directory_component :
    get_versioned_filename
      [("d/host.csv", FileContent.rows []), ("d/host1.csv", FileContent.rows [])]
      "d/host.csv" = "d/host1.csv" ∧
    fsExists [("d/host.csv", FileContent.rows []), ("d/host1.csv", FileContent.rows [])]
      "d/host1.csv" = true ∧
    "d/host1.csv" ≠ "d/host2.csv" :=
  ⟨rfl, rfl, by decide⟩

/-- C8, amended.  For an output path without a directory component the
claimed rule holds: a non-existent base name is used as-is, and an existing
one receives the successor of the largest numeric suffix found among the
sibling files matching the base-number-extension pattern, which is 1 when
only the bare base matches.  Paths with a directory component escape the
sibling scan entirely. -/
theorem c8_versioning_without_directory (fs : FS) (bf base_name ext : String)
    (hsplit : splitext bf = (base_name, ext))
    (hslash : bf.data.contains '/' = false) :
    (fsExists fs bf = false → get_versioned_filename fs bf = bf) ∧
    (fsExists fs bf = true →
      ∃ k : Nat, 1 ≤ k ∧
        get_versioned_filename fs bf = base_name ++ toString k ++ ext ∧
        (∀ m ∈ foundVersions base_name ext (listdir fs "."), m < k) ∧
        (k = 1 ∨ k - 1 ∈ foundVersions base_name ext (listdir fs "."))) := by
  constructor
  · intro hex
    simp [get_versioned_filename, hex]
  · intro hex
    have hdir : dirnameOf bf = "" := dirname_no_slash bf hslash
    obtain ⟨hge, hub, hcase⟩ := foldVer_spec base_name ext (listdir fs ".") (-1) le_rfl
    have hgv : get_versioned_filename fs bf =
        (if (listdir fs ".").foldl (stepVer base_name ext) (-1) + 1 = 0
         then base_name ++ "1" ++ ext
         else base_name ++
           toString ((listdir fs ".").foldl (stepVer base_name ext) (-1) + 1).toNat ++ ext) := by
      simp [get_versioned_filename, hex, hsplit, hdir, maxVersion]
    rcases hcase with hML | ⟨m0, hm0, hm0e⟩
    · refine ⟨1, le_rfl, ?_, ?_, Or.inl rfl⟩
      · rw [hgv, hML]
        norm_num
        rfl
      · intro m hm
        have hle := hub m hm
        rw [hML] at hle
        omega
    · refine ⟨m0 + 1, by omega, ?_, ?_, Or.inr (by simpa using hm0)⟩
      · rw [hgv, if_neg (by omega)]
        have htn : ((listdir fs ".").foldl (stepVer base_name ext) (-1) + 1).toNat = m0 + 1 := by
          omega
        rw [htn]
      · intro m hm
        have hle := hub m hm
        omega

/-- C8, witness for the amended theorem: with host.csv and host1.csv both
present, the chosen suffix exceeds every found suffix, and with an empty
filesystem the base name is kept. -/
theorem c8_witness :
    (fsExists ([] : FS) "host.csv" = false →
      get_versioned_filename ([] : FS) "host.csv" = "host.csv") ∧
    (∃ k : Nat, 1 ≤ k ∧
      get_versioned_filename
        [("host.csv", FileContent.rows []), ("host1.csv", FileContent.rows [])]
        "host.csv" = "host" ++ toString k ++ ".csv" ∧
      (∀ m ∈ foundVersions "host" ".csv"
        (listdir [("host.csv", FileContent.rows []), ("host1.csv", FileContent.rows [])] "."),
        m < k) ∧
      (k = 1 ∨ k - 1 ∈ foundVersions "host" ".csv"
        (listdir [("host.csv", FileContent.rows []), ("host1.csv", FileContent.rows [])] "."))) :=
  ⟨(c8_versioning_without_directory [] "host.csv" "host" ".csv" rfl rfl).1,
   (c8_versioning_without_directory
      [("host.csv", FileContent.rows []), ("host1.csv", FileContent.rows [])]
      "host.csv" "host" ".csv" rfl rfl).2 rfl⟩

end UnauthChecker
